import Mathlib

/-!
Shallow embedding of the pseudoterminal session engine of
`ai-terminal-tui` (Go sources `main.go`, `pty_unix.go`), together with
theorems settling the specification claims about it.

Bytes are modelled as `Nat` (values `0..255`), byte slices as `List Nat`,
Go strings as Lean `String` (a list of Unicode code points; Go's
`[]byte(s)` conversion is modelled explicitly as UTF-8 encoding).
-/

namespace AiTerminalTui

/-! ## Output buffer policy (main.go, `Model.Update`, `ptyMsg` case, lines 343-349)

```
m.output = append(m.output, msg...)
if len(m.output) > 100000 {
    m.output = m.output[len(m.output)-50000:]
}
```
-/

/-- One append step of the output buffer: append the chunk read from the
PTY, and if the buffer now holds more than 100000 bytes keep only its
last 50000 bytes. -/
def bufStep (out chunk : List Nat) : List Nat :=
  let o := out ++ chunk
  if o.length > 100000 then o.drop (o.length - 50000) else o

/-- The buffer obtained by feeding a sequence of read chunks, in order,
through `bufStep`, starting from the empty buffer. -/
def bufRun (chunks : List (List Nat)) : List Nat :=
  chunks.foldl bufStep []

/-! ## Go string primitives used by `GenerateCommand` (main.go, lines 506-514)

`strings.TrimSpace` trims leading and trailing code points satisfying
`unicode.IsSpace`; for the Latin-1 range those are `\t \n \v \f \r`,
space, U+0085 and U+00A0. `strings.TrimPrefix`/`TrimSuffix` remove one
occurrence of the given affix when present. -/

/-- `unicode.IsSpace` restricted to the Latin-1 range (all inputs the
claims exercise are ASCII). -/
def goIsSpace (c : Char) : Bool :=
  c = ' ' || c = '\t' || c = '\n' || c = '\x0b' || c = '\x0c' || c = '\r' ||
    c.toNat = 0x85 || c.toNat = 0xA0

/-- `strings.TrimSpace` on the code-point list of a Go string. -/
def trimSpaceL (l : List Char) : List Char :=
  ((l.dropWhile goIsSpace).reverse.dropWhile goIsSpace).reverse

/-- `strings.TrimPrefix s pre` on code-point lists. -/
def trimPre (s pre : List Char) : List Char :=
  if pre.isPrefixOf s then s.drop pre.length else s

/-- `strings.TrimSuffix s suf` on code-point lists. -/
def trimSuf (s suf : List Char) : List Char :=
  if suf.isSuffixOf s then s.take (s.length - suf.length) else s

/-- `strings.TrimSpace` on a Go string. -/
def trimSpace (s : String) : String := ⟨trimSpaceL s.data⟩

/-- The post-processing `GenerateCommand` applies to the first choice's
message content (main.go lines 507-514), in the source's order:

```
content := strings.TrimSpace(result.Choices[0].Message.Content)
content = strings.TrimPrefix(content, "```bash")
content = strings.TrimPrefix(content, "```sh")
content = strings.TrimPrefix(content, "```shell")
content = strings.TrimPrefix(content, "```")
content = strings.TrimSuffix(content, "```")
return strings.TrimSpace(content), nil
```
-/
def resolveContentL (raw : List Char) : List Char :=
  trimSpaceL
    (trimSuf
      (trimPre
        (trimPre
          (trimPre
            (trimPre (trimSpaceL raw) ("```bash".data))
            ("```sh".data))
          ("```shell".data))
        ("```".data))
      ("```".data))

/-- String-level wrapper for `resolveContentL`. -/
def resolveContent (raw : String) : String := ⟨resolveContentL raw.data⟩

/-- Typed errors `GenerateCommand` can return (main.go lines 489-517).
`apiError` carries the non-200 status and the raw response body
(`fmt.Errorf("API error (status %d): %s", ...)`); `decodeError` models a
JSON decode failure; `emptyResponse` is `fmt.Errorf("no response from AI")`. -/
inductive GenError
  | apiError (status : Nat) (body : String)
  | decodeError
  | emptyResponse
  deriving DecidableEq, Repr

/-- An HTTP response as `GenerateCommand` observes it: status code, raw
body, and the decoded `choices[i].message.content` list (`none` models a
body on which JSON decoding fails). -/
structure APIResponse where
  status : Nat
  body : String
  choices : Option (List String)
  deriving DecidableEq, Repr

/-- `GenerateCommand` (main.go lines 489-517), from the point the HTTP
response is available: non-200 fails with status and body; a decode
failure fails; a decoded response with at least one choice succeeds with
the fence-stripped trimmed content; zero choices fail with the
empty-response error. -/
def generateCommand (resp : APIResponse) : Except GenError String :=
  if resp.status ≠ 200 then .error (.apiError resp.status resp.body)
  else
    match resp.choices with
    | none => .error .decodeError
    | some [] => .error .emptyResponse
    | some (c :: _) => .ok (resolveContent c)

/-! ## PTY backend: Resize and Close (pty_unix.go) -/

/-- The dimensions stored in the `PTY` struct (`width`, `height` are Go
ints). -/
structure PTYDim where
  width : Int
  height : Int
  deriving DecidableEq, Repr

/-- The `pty.Winsize` argument passed to `pty.Setsize`: `Rows` and
`Cols` are `uint16`, filled by Go's narrowing conversions
`uint16(height)`, `uint16(width)`. -/
structure Winsize where
  rows : Nat
  cols : Nat
  deriving DecidableEq, Repr

/-- Go's conversion from `int` to `uint16`: the low 16 bits of the
two's-complement representation, i.e. the value modulo 2^16. -/
def uint16OfInt (n : Int) : Nat := (n % 65536).toNat

/-- `PTY.Resize` (pty_unix.go lines 69-76): unconditionally stores the
given width and height, then forwards them to the kernel via
`pty.Setsize` with `uint16` conversions. There is no validation of the
arguments; the only error returned is whatever `pty.Setsize` returns. -/
def ptyResize (_p : PTYDim) (width height : Int) : PTYDim × Winsize :=
  ({ width := width, height := height },
   { rows := uint16OfInt height, cols := uint16OfInt width })

/-- Signals the PTY variant can send to the child process. -/
inductive Sig
  | sigterm
  | sigkill
  deriving DecidableEq, Repr

/-- Observable state of `PTY.Close` (pty_unix.go lines 58-66):
`filePresent` is `p.file != nil`, `procPresent` is
`p.cmd != nil && p.cmd.Process != nil`; `fileCloseCalls` counts the
invocations of `p.file.Close()` and `signalsSent` logs the signals sent
to the child, in order. -/
structure PTYCloseState where
  filePresent : Bool
  procPresent : Bool
  fileCloseCalls : Nat
  signalsSent : List Sig
  deriving DecidableEq, Repr

/-- `PTY.Close` (pty_unix.go lines 58-66):

```
if p.file != nil { p.file.Close() }
if p.cmd != nil && p.cmd.Process != nil { p.cmd.Process.Kill() }
return nil
```

`Process.Kill` sends SIGKILL. Neither `p.file` nor `p.cmd` is cleared,
so the guards see the same values on a repeated call; the return value
is always `nil` (modelled as `none`: no error). -/
def ptyCloseStep (s : PTYCloseState) : PTYCloseState × Option GenError :=
  let s1 := if s.filePresent then { s with fileCloseCalls := s.fileCloseCalls + 1 } else s
  let s2 := if s1.procPresent then { s1 with signalsSent := s1.signalsSent ++ [Sig.sigkill] } else s1
  (s2, none)

/-- The signal sent by the `KillProcess` helper in the PTY variant
(pty_unix.go lines 130-132): `process.Signal(syscall.SIGTERM)`. This
helper is not called by `PTY.Close`. -/
def killProcessSignal : Sig := Sig.sigterm

/-- A fresh, live close state: open file handle, running child, nothing
released yet. -/
def pc0 : PTYCloseState :=
  { filePresent := true, procPresent := true, fileCloseCalls := 0, signalsSent := [] }

/-! ## Key Encoder (main.go, `teaKeyToBytes`, lines 378-433) -/

/-- The `tea.KeyType` values named in the `teaKeyToBytes` switch, plus
`runes` (`tea.KeyRunes`) and `other` standing for every key type the
switch does not name (those fall to the `default` branch). -/
inductive TeaKeyType
  | enter | backspace | tab | esc
  | up | down | left | right
  | home | endKey | delete | pgUp | pgDown
  | space
  | ctrlC | ctrlD | ctrlZ | ctrlL | ctrlA | ctrlE | ctrlU | ctrlK
  | runes
  | other
  deriving DecidableEq, Repr

/-- A `tea.KeyMsg`: key type plus the literal runes (code points). -/
structure TeaKeyMsg where
  type : TeaKeyType
  runes : List Char
  deriving DecidableEq, Repr

/-- UTF-8 encoding of one code point, as produced by Go's
`[]byte(string(runes))` conversion. -/
def charUtf8 (c : Char) : List Nat :=
  let n := c.toNat
  if n < 0x80 then [n]
  else if n < 0x800 then
    [0xC0 ||| (n >>> 6), 0x80 ||| (n &&& 0x3F)]
  else if n < 0x10000 then
    [0xE0 ||| (n >>> 12), 0x80 ||| ((n >>> 6) &&& 0x3F), 0x80 ||| (n &&& 0x3F)]
  else
    [0xF0 ||| (n >>> 18), 0x80 ||| ((n >>> 12) &&& 0x3F),
     0x80 ||| ((n >>> 6) &&& 0x3F), 0x80 ||| (n &&& 0x3F)]

/-- UTF-8 byte sequence of a list of code points. -/
def utf8Bytes (cs : List Char) : List Nat := (cs.map charUtf8).flatten

/-- UTF-8 byte sequence of a Go string (`[]byte(s)`). -/
def utf8Str (s : String) : List Nat := utf8Bytes s.data

/-- `teaKeyToBytes` (main.go lines 378-433). `none` models a `nil` byte
slice (the caller skips the write); `some bs` a non-nil slice. The
switch returns fixed control bytes and CSI sequences for the named keys,
`nil` for `tea.KeyCtrlK` (reserved for the AI-prompt toggle), the UTF-8
bytes of the runes for `tea.KeyRunes`, and in the `default` branch the
runes' bytes when there are any, else `nil`. -/
def teaKeyToBytes (k : TeaKeyMsg) : Option (List Nat) :=
  match k.type with
  | .enter => some [13]
  | .backspace => some [127]
  | .tab => some [9]
  | .esc => some [27]
  | .up => some [27, 91, 65]
  | .down => some [27, 91, 66]
  | .left => some [27, 91, 68]
  | .right => some [27, 91, 67]
  | .home => some [27, 91, 72]
  | .endKey => some [27, 91, 70]
  | .delete => some [27, 91, 51, 126]
  | .pgUp => some [27, 91, 53, 126]
  | .pgDown => some [27, 91, 54, 126]
  | .space => some [32]
  | .ctrlC => some [3]
  | .ctrlD => some [4]
  | .ctrlZ => some [26]
  | .ctrlL => some [12]
  | .ctrlA => some [1]
  | .ctrlE => some [5]
  | .ctrlU => some [21]
  | .ctrlK => none
  | .runes => some (utf8Bytes k.runes)
  | .other => if k.runes.length > 0 then some (utf8Bytes k.runes) else none

/-! ## Session engine state and Update (main.go, `Model` / `Model.Update`) -/

/-- The Bubble Tea model state relevant to the session engine, plus a
log of the byte slices written to the PTY (`writes`, oldest first),
which records every `m.pty.Write` call. `ptyPresent` is
`m.pty != nil`; `ptyWidth`/`ptyHeight` mirror the `PTY` struct's stored
dimensions. -/
structure EModel where
  output : List Nat
  writes : List (List Nat)
  width : Int
  height : Int
  ptyWidth : Int
  ptyHeight : Int
  ptyPresent : Bool
  aiResponse : String
  loading : Bool
  showPrompt : Bool
  inputFocused : Bool
  err : Option GenError
  deriving DecidableEq, Repr

/-- The messages delivered to `Model.Update` that the session engine
acts on (main.go lines 334-372). The `tea.KeyMsg` branch (lines
289-332) is modelled separately through `teaKeyToBytes`. -/
inductive EMsg
  | ptyMsg (bs : List Nat)
  | aiResponseMsg (s : String)
  | errMsg (e : GenError)
  | tickMsg
  | windowSizeMsg (w h : Int)
  deriving DecidableEq, Repr

/-- The commands `Model.Update` can return: `readPTY` schedules one PTY
read, `tick` schedules the next 50 ms timer message. -/
inductive ECmd
  | readPTY
  | tick
  deriving DecidableEq, Repr

/-- `Model.Update` (main.go lines 334-372) restricted to the engine
messages:

* `ptyMsg`: append to the output buffer, cap-and-halve, reschedule a read;
* `aiResponseMsg`: store the response, stop loading, and if a PTY exists
  and the response is non-empty, trim it and (when still non-empty)
  write it with a single `"\n"` appended; then hide and blur the prompt;
* `errMsg`: store the error, no command;
* `time.Time` tick: batch a read and the next tick;
* `WindowSizeMsg`: store width/height; when a PTY exists, forward
  `Resize(width, height-3)`, which stores the dimensions in the PTY. -/
def engineUpdate (m : EModel) (msg : EMsg) : EModel × List ECmd :=
  match msg with
  | .ptyMsg bs =>
      ({ m with output := bufStep m.output bs }, [.readPTY])
  | .aiResponseMsg s =>
      let m1 := { m with aiResponse := s, loading := false }
      let m2 :=
        if m1.ptyPresent = true ∧ s ≠ "" then
          let cmd := trimSpace s
          if cmd ≠ "" then { m1 with writes := m1.writes ++ [utf8Str (cmd ++ "\n")] }
          else m1
        else m1
      ({ m2 with showPrompt := false, inputFocused := false }, [])
  | .errMsg e =>
      ({ m with err := some e }, [])
  | .tickMsg =>
      (m, [.readPTY, .tick])
  | .windowSizeMsg w h =>
      let m1 := { m with width := w, height := h }
      if m1.ptyPresent = true then
        ({ m1 with ptyWidth := w, ptyHeight := h - 3 }, [])
      else (m1, [])

/-- The result of one backend `Read` as `readPTYMsg` observes it. -/
inductive ReadResult
  | bytes (bs : List Nat)
  | eofR
  | errR (e : GenError)
  deriving DecidableEq, Repr

/-- `Model.readPTYMsg` (main.go lines 255-270), with the PTY present: a
successful read of `n` bytes yields a `ptyMsg`; `io.EOF` yields `nil`
(no message, so nothing further is dispatched from this read); any
other error yields an `errMsg`. -/
def readPTYMsg : ReadResult → Option EMsg
  | .bytes bs => some (.ptyMsg bs)
  | .eofR => none
  | .errR e => some (.errMsg e)

/-- A concrete engine state: empty buffer, PTY present, nothing written. -/
def emodel0 : EModel :=
  { output := [], writes := [], width := 0, height := 0, ptyWidth := 0,
    ptyHeight := 0, ptyPresent := true, aiResponse := "", loading := false,
    showPrompt := false, inputFocused := false, err := none }

/-! ## Theorems -/

theorem bufStep_suffix {out total : List Nat} (chunk : List Nat)
    (h : out <:+ total) : bufStep out chunk <:+ total ++ chunk := by
  unfold bufStep
  obtain ⟨t, ht⟩ := h
  have happ : out ++ chunk <:+ total ++ chunk := ⟨t, by rw [← ht, List.append_assoc]⟩
  by_cases hc : (out ++ chunk).length > 100000
  · simp only [hc, if_pos]
    exact List.IsSuffix.trans (List.drop_suffix _ _) happ
  · simp only [hc, if_neg, not_false_iff]
    simpa using happ

theorem bufFoldl_suffix (chunks : List (List Nat)) :
    ∀ out total : List Nat, out <:+ total →
      chunks.foldl bufStep out <:+ total ++ chunks.flatten := by
  induction chunks with
  | nil => intro out total h; simpa using h
  | cons c cs ih =>
    intro out total h
    have h1 : bufStep out c <:+ total ++ c := bufStep_suffix c h
    have h2 := ih (bufStep out c) (total ++ c) h1
    simpa [List.append_assoc] using h2

/-- The buffer is always a suffix of the concatenation of everything read. -/
theorem bufRun_suffix (chunks : List (List Nat)) :
    bufRun chunks <:+ chunks.flatten := by
  have h := bufFoldl_suffix chunks [] [] (List.nil_suffix)
  simpa [bufRun] using h

/-- One buffer step never leaves more than 100000 bytes. -/
theorem bufStep_length_le (out chunk : List Nat) :
    (bufStep out chunk).length ≤ 100000 := by
  unfold bufStep
  by_cases hc : (out ++ chunk).length > 100000
  · simp only [hc, if_pos, List.length_drop]
    omega
  · simp only [hc, if_neg, not_false_iff]
    omega

theorem bufFoldl_length_le (chunks : List (List Nat)) :
    ∀ out : List Nat, out.length ≤ 100000 →
      (chunks.foldl bufStep out).length ≤ 100000 := by
  induction chunks with
  | nil => intro out h; simpa using h
  | cons c cs ih =>
    intro out _
    exact ih (bufStep out c) (bufStep_length_le out c)

theorem bufRun_length_le (chunks : List (List Nat)) :
    (bufRun chunks).length ≤ 100000 := by
  exact bufFoldl_length_le chunks [] (by simp)

/-- C1 (amended): the output buffer is maintained under a cap-and-halve
policy per step, not permanently: at every append step whose result
exceeds the 100000-byte cap, the buffer is truncated to exactly the last
50000 bytes of the concatenation of all chunks read so far; between such
steps the buffer grows again as a suffix of the concatenation. -/
theorem spec_c1_cap_and_halve (p : List (List Nat)) (c : List Nat)
    (h : (bufRun p ++ c).length > 100000) :
    bufRun (p ++ [c]) =
      ((p ++ [c]).flatten).drop (((p ++ [c]).flatten).length - 50000) := by
  obtain ⟨t, ht⟩ := bufRun_suffix p
  have hfold : bufRun (p ++ [c]) = bufStep (bufRun p) c := by
    simp [bufRun, List.foldl_append]
  have hstep : bufStep (bufRun p) c =
      (bufRun p ++ c).drop ((bufRun p ++ c).length - 50000) := by
    unfold bufStep
    rw [if_pos h]
  have hJ : (p ++ [c]).flatten = t ++ (bufRun p ++ c) := by
    rw [List.flatten_append, ← ht]
    simp [List.append_assoc]
  have h' : 100000 < (bufRun p).length + c.length := by simpa using h
  have hlen : ((p ++ [c]).flatten).length - 50000 =
      t.length + ((bufRun p ++ c).length - 50000) := by
    rw [hJ]
    simp only [List.length_append]
    omega
  rw [hfold, hstep, hlen, hJ, ← List.drop_drop, List.drop_left]

/-- C1 witness: with a single over-cap chunk, the step that exceeds the
cap leaves exactly the last 50000 bytes of the concatenation. -/
theorem spec_c1_cap_and_halve_witness :
    (bufRun [] ++ List.replicate 100001 (0 : Nat)).length > 100000 ∧
    bufRun ([] ++ [List.replicate 100001 (0 : Nat)]) =
      (([] ++ [List.replicate 100001 (0 : Nat)]).flatten).drop
        ((([] ++ [List.replicate 100001 (0 : Nat)]).flatten).length - 50000) := by
  have hyp : (bufRun [] ++ List.replicate 100001 (0 : Nat)).length > 100000 := by
    rw [show bufRun [] = ([] : List Nat) from rfl, List.nil_append, List.length_replicate]
    norm_num
  exact ⟨hyp, spec_c1_cap_and_halve [] _ hyp⟩

/-- The length of one buffer step, as a function of the input lengths. -/
theorem bufStep_length (out chunk : List Nat) :
    (bufStep out chunk).length =
      if out.length + chunk.length > 100000 then 50000 else out.length + chunk.length := by
  unfold bufStep
  simp only [List.length_append]
  by_cases hc : out.length + chunk.length > 100000
  · rw [if_pos hc, if_pos hc, List.length_drop, List.length_append]
    omega
  · rw [if_neg hc, if_neg hc, List.length_append]

/-- Generic form of the C1 counterexample: feeding any 100001-byte chunk
followed by a 1-byte chunk, the total appended length (100002) exceeds
the cap, yet the buffer (50001 bytes) is not the last 50000 bytes of
the concatenation. -/
theorem bufRun_not_half_cap (x : List Nat) (hx : x.length = 100001) :
    (([x, [1]] : List (List Nat)).flatten.length > 100000) ∧
    bufRun [x, [1]] ≠
      (([x, [1]] : List (List Nat)).flatten).drop
        ((([x, [1]] : List (List Nat)).flatten).length - 50000) := by
  have hf : ([x, [1]] : List (List Nat)).flatten.length = 100002 := by
    simp only [List.flatten_cons, List.flatten_nil, List.append_nil, List.length_append,
      List.length_cons, List.length_nil, hx]
  have l2 : (bufRun [x, [1]]).length = 50001 := by
    simp only [bufRun, List.foldl_cons, List.foldl_nil]
    rw [bufStep_length, bufStep_length]
    simp only [List.length_nil, List.length_cons, hx]
    norm_num
  have l3 : ((([x, [1]] : List (List Nat)).flatten).drop
      ((([x, [1]] : List (List Nat)).flatten).length - 50000)).length = 50000 := by
    rw [List.length_drop, hf]
  constructor
  · rw [hf]
    norm_num
  · intro hcontra
    have hl := congrArg List.length hcontra
    rw [l2, l3] at hl
    exact absurd hl (by norm_num)

/-- C1 counterexample: the claim as stated is false — after the total
appended length has exceeded the cap (here 100001 then 100002 bytes),
a later small append leaves the buffer holding the last 50001 bytes of
the concatenation, not the claimed last 50000. -/
theorem spec_c1_counterexample :
    (([List.replicate 100001 0, [1]] : List (List Nat)).flatten.length > 100000) ∧
    bufRun [List.replicate 100001 0, [1]] ≠
      (([List.replicate 100001 0, [1]] : List (List Nat)).flatten).drop
        ((([List.replicate 100001 0, [1]] : List (List Nat)).flatten).length - 50000) :=
  bufRun_not_half_cap (List.replicate 100001 0) (List.length_replicate 100001 0)

/-- C9: the output buffer length never exceeds the 100000-byte cap:
every `Update` transition preserves the bound, and the `ptyMsg` append
step establishes it unconditionally. -/
theorem spec_c9_output_cap (m : EModel) (msg : EMsg)
    (h : m.output.length ≤ 100000) :
    ((engineUpdate m msg).1).output.length ≤ 100000 := by
  cases msg with
  | ptyMsg bs => simpa [engineUpdate] using bufStep_length_le m.output bs
  | aiResponseMsg s =>
      simp only [engineUpdate]
      by_cases h1 : m.ptyPresent = true ∧ s ≠ ""
      · by_cases h2 : trimSpace s ≠ "" <;> simp [h1, h2, h]
      · simp [h1, h]
  | errMsg e => simpa [engineUpdate] using h
  | tickMsg => simpa [engineUpdate] using h
  | windowSizeMsg w hh =>
      simp only [engineUpdate]
      by_cases h1 : m.ptyPresent = true <;> simp [h1, h]

/-- C9 witness: the bound holds across a concrete append step. -/
theorem spec_c9_output_cap_witness :
    emodel0.output.length ≤ 100000 ∧
    ((engineUpdate emodel0 (EMsg.ptyMsg [1, 2, 3])).1).output.length ≤ 100000 :=
  ⟨by simp [emodel0], spec_c9_output_cap emodel0 (EMsg.ptyMsg [1, 2, 3]) (by simp [emodel0])⟩

/-- C4: the key encoder is a pure total function with the fixed
mappings: Enter to `[13]`, Ctrl+C to `[3]`, Up to `[27,91,65]`, rune
input to its UTF-8 bytes, the reserved AI-prompt toggle Ctrl+K to no
bytes, and unnamed keys with no literal runes to no bytes. -/
theorem spec_c4_key_encoder (rs : List Char) :
    teaKeyToBytes ⟨.enter, rs⟩ = some [13] ∧
    teaKeyToBytes ⟨.ctrlC, rs⟩ = some [3] ∧
    teaKeyToBytes ⟨.up, rs⟩ = some [27, 91, 65] ∧
    teaKeyToBytes ⟨.runes, rs⟩ = some (utf8Bytes rs) ∧
    teaKeyToBytes ⟨.ctrlK, rs⟩ = none ∧
    teaKeyToBytes ⟨.other, []⟩ = none :=
  ⟨rfl, rfl, rfl, rfl, rfl, rfl⟩

/-- C2 evaluation at the failing input: a 200 response whose first
choice is fenced with three backticks and the word shell is mangled:
the three-backticks-sh trim fires first and leaves the trailing
letters, so the resolved text is not the fenced command. The
three-backticks-bash fence from the same claim is stripped correctly. -/
theorem spec_c2_shell_fence_eval :
    generateCommand ⟨200, "", some ["```bash\nls -la\n```"]⟩ = .ok "ls -la" ∧
    generateCommand ⟨200, "", some ["```shell\nls -la\n```"]⟩ = .ok "ell\nls -la" ∧
    ("ell\nls -la" : String) ≠ "ls -la" :=
  ⟨rfl, rfl, by decide⟩

/-- C3 counterexample: `Resize(0, 0)` from stored dimensions 80 by 24
overwrites the stored dimensions rather than leaving them unchanged, so
the claim is false. -/
theorem spec_c3_counterexample :
    (ptyResize { width := 80, height := 24 } 0 0).1 = { width := 0, height := 0 } ∧
    ({ width := 0, height := 0 } : PTYDim) ≠ { width := 80, height := 24 } :=
  ⟨rfl, by decide⟩

/-- C3 (amended): `Resize` performs no validation: with non-positive
dimensions it still unconditionally stores the given width and height
and forwards them to the backend converted to `uint16` (modulo 2^16);
no `ResizeError` is produced by the validation the claim describes. -/
theorem spec_c3_resize_no_validation (p : PTYDim) (w h : Int)
    (_hnp : w ≤ 0 ∨ h ≤ 0) :
    (ptyResize p w h).1.width = w ∧ (ptyResize p w h).1.height = h ∧
    (ptyResize p w h).2 = { rows := uint16OfInt h, cols := uint16OfInt w } :=
  ⟨rfl, rfl, rfl⟩

/-- C3 witness: `Resize(0, -1)` stores width 0 and height -1 and
forwards rows 65535 (the uint16 wrap of -1) and cols 0. -/
theorem spec_c3_resize_no_validation_witness :
    ((0 : Int) ≤ 0 ∨ (-1 : Int) ≤ 0) ∧
    ((ptyResize { width := 80, height := 24 } 0 (-1)).1.width = 0 ∧
     (ptyResize { width := 80, height := 24 } 0 (-1)).1.height = -1 ∧
     (ptyResize { width := 80, height := 24 } 0 (-1)).2 = { rows := 65535, cols := 0 }) := by
  have h := spec_c3_resize_no_validation { width := 80, height := 24 } 0 (-1)
    (Or.inl le_rfl)
  refine ⟨Or.inl le_rfl, h.1, h.2.1, ?_⟩
  rw [h.2.2]
  decide

/-- C5: a non-200 HTTP response makes `GenerateCommand` fail with an
error carrying the status code and the raw body; the resulting `errMsg`
update stores the error and writes nothing to the session. -/
theorem spec_c5_http_error (resp : APIResponse) (m : EModel)
    (h : resp.status ≠ 200) :
    generateCommand resp = .error (.apiError resp.status resp.body) ∧
    (engineUpdate m (.errMsg (.apiError resp.status resp.body))).1.writes = m.writes ∧
    (engineUpdate m (.errMsg (.apiError resp.status resp.body))).1.err =
      some (.apiError resp.status resp.body) ∧
    (engineUpdate m (.errMsg (.apiError resp.status resp.body))).2 = [] := by
  refine ⟨?_, rfl, rfl, rfl⟩
  simp [generateCommand, h]

/-- C5 witness: a 500 response with body "oops" produces the typed
error and leaves the write log untouched. -/
theorem spec_c5_http_error_witness :
    ((500 : Nat) ≠ 200) ∧
    (generateCommand ⟨500, "oops", none⟩ = .error (.apiError 500 "oops") ∧
     (engineUpdate emodel0 (.errMsg (.apiError 500 "oops"))).1.writes = emodel0.writes ∧
     (engineUpdate emodel0 (.errMsg (.apiError 500 "oops"))).1.err =
       some (.apiError 500 "oops") ∧
     (engineUpdate emodel0 (.errMsg (.apiError 500 "oops"))).2 = []) :=
  ⟨by decide, spec_c5_http_error ⟨500, "oops", none⟩ emodel0 (by decide)⟩

/-- C6 counterexample: the claim that reads stop is false — a clean
end-of-stream produces no message (and no error), yet the very next
periodic tick unconditionally schedules another read. -/
theorem spec_c6_counterexample :
    readPTYMsg .eofR = none ∧
    (engineUpdate emodel0 .tickMsg).2 = [ECmd.readPTY, ECmd.tick] :=
  ⟨rfl, rfl⟩

/-- C6 (amended): a clean end-of-stream surfaces no error and that read
chain dispatches nothing further; any other read failure surfaces the
error (stored in the model) and its chain schedules nothing; but the
50 ms tick handler unconditionally schedules a new read with every
tick, so reads resume on the next tick rather than stopping for good. -/
theorem spec_c6_read_loop (m : EModel) (e : GenError) (bs : List Nat) :
    readPTYMsg .eofR = none ∧
    readPTYMsg (.errR e) = some (.errMsg e) ∧
    readPTYMsg (.bytes bs) = some (.ptyMsg bs) ∧
    (engineUpdate m (.errMsg e)).1.err = some e ∧
    (engineUpdate m (.errMsg e)).2 = [] ∧
    (engineUpdate m (.ptyMsg bs)).2 = [ECmd.readPTY] ∧
    (engineUpdate m .tickMsg).2 = [ECmd.readPTY, ECmd.tick] :=
  ⟨rfl, rfl, rfl, rfl, rfl, rfl, rfl⟩

/-- C7 counterexample: the second `Close` after a first `Close` again
returns no error but performs a second release of the backend file
handle (the close call count goes from 1 to 2), so the claim's
"does not release the backend handle a second time" is false. -/
theorem spec_c7_counterexample :
    (ptyCloseStep pc0).2 = none ∧
    (ptyCloseStep (ptyCloseStep pc0).1).2 = none ∧
    (ptyCloseStep pc0).1.fileCloseCalls = 1 ∧
    (ptyCloseStep (ptyCloseStep pc0).1).1.fileCloseCalls = 2 :=
  ⟨rfl, rfl, rfl, rfl⟩

/-- C7 (amended): every `Close` call returns no error (so a repeated
`Close` is error-free as claimed), but the handle fields are never
cleared, so each call on a live state releases the file handle and
signals the child again — a second call re-releases rather than
no-oping. -/
theorem spec_c7_close_repeat (s : PTYCloseState) :
    (ptyCloseStep s).2 = none ∧
    (ptyCloseStep s).1.filePresent = s.filePresent ∧
    (ptyCloseStep s).1.procPresent = s.procPresent ∧
    (ptyCloseStep s).1.fileCloseCalls =
      s.fileCloseCalls + (if s.filePresent then 1 else 0) := by
  unfold ptyCloseStep
  by_cases hf : s.filePresent <;> by_cases hp : s.procPresent <;> simp [hf, hp]

/-- C8 counterexample: closing a session with a live child sends
SIGKILL (Go's `Process.Kill`), which is not the graceful-terminate
signal the claim requires first. -/
theorem spec_c8_counterexample :
    (ptyCloseStep pc0).1.signalsSent = [Sig.sigkill] ∧
    Sig.sigkill ≠ killProcessSignal :=
  ⟨rfl, by decide⟩

/-- C8 (amended): `PTY.Close` sends an immediate forced kill (SIGKILL)
to the child, not a graceful terminate; the repository's `KillProcess`
helper would send SIGTERM but is never called by `Close`. -/
theorem spec_c8_close_signal (s : PTYCloseState) :
    killProcessSignal = Sig.sigterm ∧
    (ptyCloseStep s).1.signalsSent =
      s.signalsSent ++ (if s.procPresent then [Sig.sigkill] else []) := by
  refine ⟨rfl, ?_⟩
  unfold ptyCloseStep
  by_cases hf : s.filePresent <;> by_cases hp : s.procPresent <;> simp [hf, hp]

/-- A whitespace-only content resolves to the empty string under the
trim-and-strip post-processing. -/
theorem resolveContentL_blank (cs : List Char) (hws : ∀ c ∈ cs, goIsSpace c = true) :
    resolveContentL cs = [] := by
  have h1 : cs.dropWhile goIsSpace = [] := List.dropWhile_eq_nil_iff.mpr hws
  have h2 : trimSpaceL cs = [] := by simp [trimSpaceL, h1]
  unfold resolveContentL
  rw [h2]
  rfl

/-- C10: a 200 response that decodes with a first choice whose content
is empty or whitespace-only makes `GenerateCommand` succeed with the
empty string; the subsequent `aiResponseMsg ""` update writes nothing
to the shell; and only a decoded response with zero choices produces
the empty-response error. -/
theorem spec_c10_blank_content (b : String) (cs : List Char) (rest : List String)
    (m : EModel) (hws : ∀ c ∈ cs, goIsSpace c = true) :
    generateCommand ⟨200, b, some (String.mk cs :: rest)⟩ = .ok "" ∧
    (engineUpdate m (.aiResponseMsg "")).1.writes = m.writes ∧
    generateCommand ⟨200, b, some []⟩ = .error .emptyResponse := by
  refine ⟨?_, ?_, rfl⟩
  · have h3 : resolveContent (String.mk cs) = "" := by
      simp only [resolveContent]
      rw [resolveContentL_blank cs hws]
    simp [generateCommand, h3]
  · simp [engineUpdate]

/-- C10 witness: a choice containing only a space and a newline yields
the empty string, and nothing is written. -/
theorem spec_c10_blank_content_witness :
    (∀ c ∈ ([' ', '\n'] : List Char), goIsSpace c = true) ∧
    (generateCommand ⟨200, "", some [String.mk [' ', '\n']]⟩ = .ok "" ∧
     (engineUpdate emodel0 (.aiResponseMsg "")).1.writes = emodel0.writes ∧
     generateCommand ⟨200, "", some []⟩ = .error .emptyResponse) :=
  ⟨by decide, spec_c10_blank_content "" [' ', '\n'] [] emodel0 (by decide)⟩

end AiTerminalTui
